import Mathlib

/-!
Shallow embedding of the VoxelEngine heightmap renderer (src/main.py) and
verification of its specification.

Python floats are modelled by exact rationals.  The values produced by the
transcendental float operations of one tick (math.sin, math.cos, math.pow,
np.linalg.norm) are passed in as explicit oracle parameters, so every theorem
quantifies over all values those operations could take; where a claim needs
real-number facts about those values (velocity decay), the corresponding
fragment is embedded over the reals.
-/

namespace VoxelEngine

/-! ### Configuration constants (src/main.py lines 8-38, 144-163) -/

/-- ACCELERATION = 2 (line 22). -/
def ACCELERATION : ℚ := 2

/-- DAMPING = 0.8 (line 23). -/
def DAMPING : ℚ := 4/5

/-- PITCH_ACCEL = 0.5 (line 26). -/
def PITCH_ACCEL : ℚ := 1/2

/-- PITCH_DAMPING = 0.9 (line 27). -/
def PITCH_DAMPING : ℚ := 9/10

/-- PITCH_MIN = -1000 (line 28). -/
def PITCH_MIN : ℚ := -1000

/-- PITCH_MAX = 1000 (line 28). -/
def PITCH_MAX : ℚ := 1000

/-- DRAW_DISTANCE = 5000 (line 11), the startup value of app.draw_distance
(line 368). -/
def DRAW_DISTANCE : ℤ := 5000

/-- WORLD_SCALE_MIN = 1 (line 36). -/
def WORLD_SCALE_MIN : ℚ := 1

/-- WORLD_SCALE_MAX = 5 (line 37). -/
def WORLD_SCALE_MAX : ℚ := 5

/-- WORLD_SCALE_STEP = 0.1 (line 38). -/
def WORLD_SCALE_STEP : ℚ := 1/10

/-! ### Terrain sampling (optimized_collision_check, lines 89-105) -/

/-- Python `int()` applied to an exact rational: truncation toward zero. -/
def pyInt (q : ℚ) : ℤ := Int.tdiv q.num q.den

/-- optimized_collision_check (lines 89-105): sample the height map at a
float position, wrapping the truncated coordinates modulo the shape in
infinite-map mode and clamping them into the grid otherwise.  The height map
is a total function `hm` over grid coordinates with dimensions `W x H`. -/
def collisionCheck (infinite : Bool) (W H : ℕ) (hm : ℕ → ℕ → ℕ)
    (px py : ℚ) : ℕ :=
  if infinite then
    hm ((Int.emod (pyInt px) (W : ℤ)).toNat) ((Int.emod (pyInt py) (H : ℤ)).toNat)
  else
    let x := pyInt px
    let y := pyInt py
    let xc : ℤ := if x < 0 then 0 else if (W : ℤ) ≤ x then (W : ℤ) - 1 else x
    let yc : ℤ := if y < 0 then 0 else if (H : ℤ) ≤ y then (H : ℤ) - 1 else y
    hm xc.toNat yc.toNat

/-! ### Player state (create_player, lines 144-163) -/

/-- The player dictionary of create_player (lines 147-163), field for field. -/
structure Player where
  pos : ℚ × ℚ
  height : ℚ
  vel : ℚ × ℚ
  v_vel : ℚ
  pitch : ℚ
  pitch_vel : ℚ
  flying : Bool
  last_space_press : ℤ
  space_pressed_prev : Bool
  angle : ℚ
  angle_vel : ℚ
  is_on_ground : Bool
  velocity_y : ℚ
  gravity : ℚ
  jump_force : ℚ
deriving DecidableEq

/-- The keyboard/mouse-button state polled in update_player (lines 166-167,
177-184, 217-219, 233-235, 244). -/
structure Keys where
  w : Bool
  s : Bool
  a : Bool
  d : Bool
  space : Bool
  lshift : Bool
  rshift : Bool
  up : Bool
  down : Bool
  mouse0 : Bool

/-- Oracle values of the transcendental float operations performed during one
update_player tick: `damp` stands for math.pow(DAMPING, dt*60) (line 191),
`pitchDamp` for math.pow(PITCH_DAMPING, dt*60) (line 238), `invNorm` for
1/np.linalg.norm(input_vec) (line 186), and `sinA`/`cosA` for math.sin and
math.cos of the post-look yaw (lines 193-194). -/
structure FloatEnv where
  damp : ℚ
  pitchDamp : ℚ
  invNorm : ℚ
  sinA : ℚ
  cosA : ℚ

/-- create_player (lines 144-163).  `angle0` is the oracle value of the
irrational initial yaw math.pi/4 (line 157). -/
def createPlayer (infinite : Bool) (W H : ℕ) (hm : ℕ → ℕ → ℕ)
    (angle0 : ℚ) : Player :=
  let px : ℚ := (W / 2 : ℕ)
  let py : ℚ := (H / 2 : ℕ)
  let th : ℚ := collisionCheck infinite W H hm px py
  { pos := (px, py)
    height := th + 40
    vel := (0, 0)
    v_vel := 0
    pitch := 0
    pitch_vel := 0
    flying := false
    last_space_press := 0
    space_pressed_prev := false
    angle := angle0
    angle_vel := 3/500
    is_on_ground := true
    velocity_y := 0
    gravity := 9/10
    jump_force := 12 }

/-! ### update_player (lines 165-275), split into its successive phases -/

/-- The raw directional input vector (lines 176-184): x from A/D, y from
W-or-left-mouse/S. -/
def inputVec (k : Keys) : ℚ × ℚ :=
  ((if k.a then -1 else 0) + (if k.d then 1 else 0),
   (if k.w || k.mouse0 then 1 else 0) + (if k.s then -1 else 0))

/-- Normalization of the input vector (lines 185-186): divide by its norm
when it is nonzero; `invNorm` is the oracle value of 1/norm. -/
def normalizeVec (invNorm : ℚ) (v : ℚ × ℚ) : ℚ × ℚ :=
  if v = (0, 0) then v else (v.1 * invNorm, v.2 * invNorm)

/-- Mouse look plus horizontal movement (lines 170-196): yaw and pitch from
the mouse delta, pitch clamped into [PITCH_MIN, PITCH_MAX]; velocity
accumulation, damping, rotation of velocity into world space by the
post-look yaw, and position integration. -/
def lookAndMove (env : FloatEnv) (k : Keys) (mouse : ℚ × ℚ)
    (dt ws : ℚ) (p : Player) : Player :=
  let angle := p.angle + mouse.1 * p.angle_vel * dt * 60
  let pitch := max (min (p.pitch - mouse.2 * (7/10) * dt * 60) PITCH_MAX) PITCH_MIN
  let iv := normalizeVec env.invNorm (inputVec k)
  let sf := 1 / ws
  let vel : ℚ × ℚ :=
    ((p.vel.1 + iv.1 * ACCELERATION * dt * 60 * sf) * env.damp,
     (p.vel.2 + iv.2 * ACCELERATION * dt * 60 * sf) * env.damp)
  let move : ℚ × ℚ :=
    (env.cosA * vel.2 - env.sinA * vel.1,
     env.sinA * vel.2 + env.cosA * vel.1)
  { p with
    angle := angle
    pitch := pitch
    vel := vel
    pos := (p.pos.1 + move.1 * dt * 60 * sf, p.pos.2 + move.2 * dt * 60 * sf) }

/-- Boundary clamp (lines 198-213): only in non-infinite mode, push each
position coordinate back into the grid and cut the outward velocity
component. -/
def clampPos (infinite : Bool) (W H : ℕ) (p : Player) : Player :=
  if infinite then p else
    let px : ℚ := if p.pos.1 < 0 then 0
      else if (W : ℚ) ≤ p.pos.1 then (W : ℚ) - 1 else p.pos.1
    let vx : ℚ := if p.pos.1 < 0 then max 0 p.vel.1
      else if (W : ℚ) ≤ p.pos.1 then min 0 p.vel.1 else p.vel.1
    let py : ℚ := if p.pos.2 < 0 then 0
      else if (H : ℚ) ≤ p.pos.2 then (H : ℚ) - 1 else p.pos.2
    let vy : ℚ := if p.pos.2 < 0 then max 0 p.vel.2
      else if (H : ℚ) ≤ p.pos.2 then min 0 p.vel.2 else p.vel.2
    { p with pos := (px, py), vel := (vx, vy) }

/-- Vertical flying-lift movement (lines 215-223): vertical input from
space / shift, accumulated and damped into v_vel, integrated into height. -/
def verticalMove (k : Keys) (dt ws damp : ℚ) (p : Player) : Player :=
  let vi : ℚ := (if k.space then 1 else 0) + (if k.lshift || k.rshift then -1 else 0)
  let vv := (p.v_vel + vi * ACCELERATION * dt * 60 * (1 / ws)) * damp
  { p with v_vel := vv, height := p.height + vv * dt * 60 * (1 / ws) }

/-- First terrain collision (lines 225-229): snap height up to the terrain
floor plus the scaled eye offset 40, zeroing v_vel. -/
def collide1 (infinite : Bool) (W H : ℕ) (hm : ℕ → ℕ → ℕ) (ws : ℚ)
    (p : Player) : Player :=
  let th : ℚ := (collisionCheck infinite W H hm p.pos.1 p.pos.2 : ℕ) * ws
  if p.height < th + 40 * ws then { p with height := th + 40 * ws, v_vel := 0 }
  else p

/-- Pitch key control (lines 231-240): accumulate and damp pitch velocity,
integrate, re-clamp pitch into [PITCH_MIN, PITCH_MAX]. -/
def pitchStep (k : Keys) (dt pitchDamp : ℚ) (p : Player) : Player :=
  let pin : ℚ := (if k.up then -1 else 0) + (if k.down then 1 else 0)
  let pv := (p.pitch_vel + pin * PITCH_ACCEL * dt * 60) * pitchDamp
  { p with
    pitch_vel := pv
    pitch := max (min (p.pitch + pv * dt * 60) PITCH_MAX) PITCH_MIN }

/-- Flying toggle and jump (lines 242-260): edge-triggered on the space key.
While not flying, a down-edge within 300 ms of the previous press enters
flying mode and zeroes velocity_y, otherwise a grounded press applies the
jump impulse jump_force * (1/ws) and clears is_on_ground; while flying, a
down-edge within 300 ms leaves flying mode.  last_space_press is refreshed on
every down-edge and space_pressed_prev always records the key level. -/
def flyToggle (k : Keys) (now : ℤ) (ws : ℚ) (p : Player) : Player :=
  if !p.flying then
    if k.space && !p.space_pressed_prev then
      if now - p.last_space_press < 300 then
        { p with flying := true, velocity_y := 0,
                 last_space_press := now, space_pressed_prev := k.space }
      else if p.is_on_ground then
        { p with velocity_y := p.jump_force * (1 / ws), is_on_ground := false,
                 last_space_press := now, space_pressed_prev := k.space }
      else
        { p with last_space_press := now, space_pressed_prev := k.space }
    else
      { p with space_pressed_prev := k.space }
  else
    if k.space && !p.space_pressed_prev then
      if now - p.last_space_press < 300 then
        { p with flying := false, velocity_y := 0,
                 last_space_press := now, space_pressed_prev := k.space }
      else
        { p with last_space_press := now, space_pressed_prev := k.space }
    else
      { p with space_pressed_prev := k.space }

/-- Gravity (lines 262-272): only while not flying, integrate gravity into
velocity_y and height, then snap back onto the terrain floor, zeroing
velocity_y and restoring is_on_ground on contact. -/
def gravityStep (infinite : Bool) (W H : ℕ) (hm : ℕ → ℕ → ℕ)
    (dt ws : ℚ) (p : Player) : Player :=
  if p.flying then p else
    let vy := p.velocity_y - p.gravity * dt * 60
    let h := p.height + vy * dt * 60 * (1 / ws)
    let th : ℚ := (collisionCheck infinite W H hm p.pos.1 p.pos.2 : ℕ) * ws
    if h < th + 40 * ws then
      { p with height := th + 40 * ws, velocity_y := 0, is_on_ground := true }
    else
      { p with height := h, velocity_y := vy, is_on_ground := false }

/-- update_player (lines 165-275): the phases above in source order.  The
chunk-loading call on line 275 touches no player state and is omitted. -/
def updatePlayer (infinite : Bool) (W H : ℕ) (hm : ℕ → ℕ → ℕ) (env : FloatEnv)
    (k : Keys) (mouse : ℚ × ℚ) (now : ℤ) (dt ws : ℚ) (p : Player) : Player :=
  gravityStep infinite W H hm dt ws
    (flyToggle k now ws
      (pitchStep k dt env.pitchDamp
        (collide1 infinite W H hm ws
          (verticalMove k dt ws env.damp
            (clampPos infinite W H
              (lookAndMove env k mouse dt ws p))))))

/-! ### The raycaster column march (ray_casting, lines 107-142)

One column of ray_casting is a march over depths 1 .. ray_distance-1.  The
float computations feeding the march are abstracted into oracle functions of
the depth: `sx`/`sy` stand for int(player_pos + depth*cos/sin) (lines
120-124) and `hos` for the truncated screen height int((player_height -
scaled_height) / depth_corr * scale_height + player_pitch) (lines 130-131).
The integer march state itself — first_contact, the y_buffer entry, the
painted spans and the terrain-grid accesses — is embedded exactly. -/

/-- Configuration of one column's march. -/
structure MarchCfg where
  infinite : Bool
  W : ℕ
  H : ℕ
  sh : ℕ
  sx : ℕ → ℤ
  sy : ℕ → ℤ
  hos : ℕ → ℤ

/-- State of one column's march: first_contact (line 115), this column's
y_buffer entry (line 110), the chronological list of painted spans
`(lo, hi)` standing for rows lo, ..., hi-1 of the paint loop (lines
138-139), and the list of terrain-grid indices read (lines 129 and 139). -/
structure MarchState where
  first : Bool
  yBuf : ℤ
  paints : List (ℤ × ℤ)
  accesses : List (ℤ × ℤ)
deriving DecidableEq

/-- In non-infinite mode the march breaks out of the depth loop as soon as
the truncated sample falls outside the grid (lines 125-126). -/
def sampleBreak (c : MarchCfg) (d : ℕ) : Bool :=
  !c.infinite &&
    (c.sx d < 0 || (c.W : ℤ) ≤ c.sx d || c.sy d < 0 || (c.H : ℤ) ≤ c.sy d)

/-- The terrain-grid index accessed at depth `d`: wrapped modulo the map
shape in infinite mode (lines 120-121), the raw truncated sample otherwise
(lines 123-124). -/
def mapIdx (c : MarchCfg) (d : ℕ) : ℤ × ℤ :=
  if c.infinite then (Int.emod (c.sx d) (c.W : ℤ), Int.emod (c.sy d) (c.H : ℤ))
  else (c.sx d, c.sy d)

/-- One depth iteration of the march body (lines 127-140) on screen height
`h`: record the terrain access; on first contact initialize the y_buffer
entry to min(h, screen_height) and set first_contact; clamp `h` to be
nonnegative; if the clamped height is below the y_buffer entry, paint the
span [h, yBuf) and lower the y_buffer entry to `h`.  first_contact is true
after any processed sample. -/
def marchStep (sh : ℤ) (idx : ℤ × ℤ) (h : ℤ) (st : MarchState) : MarchState :=
  let acc := st.accesses ++ [idx]
  let yb := if st.first then st.yBuf else min h sh
  let hc := if h < 0 then 0 else h
  if hc < yb then ⟨true, hc, st.paints ++ [(hc, yb)], acc⟩
  else ⟨true, yb, st.paints, acc⟩

/-- The march over a list of depths, breaking out of the loop on an
out-of-grid sample in non-infinite mode (lines 118-126). -/
def marchDepths (c : MarchCfg) : List ℕ → MarchState → MarchState
  | [], st => st
  | d :: ds, st =>
    if sampleBreak c d then st
    else marchDepths c ds (marchStep (c.sh : ℤ) (mapIdx c d) (c.hos d) st)

/-- Initial march state of a column: first_contact false, y_buffer entry
screen_height (line 110), nothing painted or accessed. -/
def initMarch (sh : ℕ) : MarchState := ⟨false, (sh : ℤ), [], []⟩

/-- The depth sequence range(1, ray_distance) of line 118. -/
def depthList (rd : ℕ) : List ℕ := List.range' 1 (rd - 1)

/-- A full column march: all depths from the initial state. -/
def columnMarch (c : MarchCfg) (rd : ℕ) : MarchState :=
  marchDepths c (depthList rd) (initMarch c.sh)

/-- The march truncated after the first `n` depth samples of the column. -/
def marchUpTo (c : MarchCfg) (rd n : ℕ) : MarchState :=
  marchDepths c (List.take n (depthList rd)) (initMarch c.sh)

/-- The outer loop of ray_casting (line 114): one column per screen x
coordinate num_ray in range(screen_width), each painting only pixels of its
own column. -/
def renderColumns (cfgs : ℕ → MarchCfg) (width rd : ℕ) : List (ℕ × MarchState) :=
  (List.range width).map (fun i => (i, columnMarch (cfgs i) rd))

/-! ### Draw distance tuning (update_app, lines 400-403) -/

/-- One tick of draw-distance tuning: PAGEUP moves to min(3000, d+50),
PAGEDOWN to max(500, d-50), in source order. -/
def updateDrawDistance (pgup pgdn : Bool) (d : ℤ) : ℤ :=
  let d1 := if pgup then min 3000 (d + 50) else d
  if pgdn then max 500 (d1 - 50) else d1

/-! ### update_voxel_render (lines 342-355) -/

/-- BREATH_AMPLITUDE = 2 (line 18). -/
noncomputable def BREATH_AMPLITUDE : ℝ := 2

/-- BREATH_FREQUENCY = 0.002 (line 19). -/
noncomputable def BREATH_FREQUENCY : ℝ := 2/1000

/-- The renderer state fields update_voxel_render touches. -/
structure VoxelRender where
  rayDistance : ℤ

/-- The arguments update_voxel_render passes to ray_casting (lines 351-355)
that originate in player or renderer state. -/
structure RayArgs where
  pos : ℚ × ℚ
  angle : ℚ
  height : ℝ
  pitch : ℚ
  rayDistance : ℤ

/-- update_voxel_render (lines 342-355): set the ray distance from the draw
distance, compute the breathing offset BREATH_AMPLITUDE *
sin(current_time * BREATH_FREQUENCY) (lines 349-350), and invoke ray_casting
with the player position, yaw, the breathing-perturbed effective height and
the pitch.  The function reads but never assigns any player field, so it
returns the player it was given; the sky blit (lines 344-348) affects only
the frame buffer and is not modelled. -/
noncomputable def updateVoxelRender (vr : VoxelRender) (p : Player)
    (drawDistance : ℤ) (t : ℝ) : VoxelRender × Player × RayArgs :=
  let eff : ℝ := (p.height : ℝ) + BREATH_AMPLITUDE * Real.sin (t * BREATH_FREQUENCY)
  ({ vr with rayDistance := drawDistance }, p,
   ⟨p.pos, p.angle, eff, p.pitch, drawDistance⟩)

/-! ### Horizontal velocity decay over the reals (lines 185-196)

For the velocity-decay claim the damping multiplier math.pow(DAMPING, dt*60)
must be related to dt, so this fragment is embedded over ℝ with real
exponentiation instead of an oracle value. -/

/-- The damping multiplier math.pow(DAMPING, dt*60) of line 191, over ℝ. -/
noncomputable def dampFactor (dt : ℝ) : ℝ := (4/5 : ℝ) ^ (dt * 60)

/-- One tick of the horizontal-velocity update (lines 190-191) over ℝ:
accumulate the (normalized) input vector `iv`, then damp. -/
noncomputable def velStep (dt ws damp : ℝ) (iv v : ℝ × ℝ) : ℝ × ℝ :=
  ((v.1 + iv.1 * 2 * dt * 60 * (1 / ws)) * damp,
   (v.2 + iv.2 * 2 * dt * 60 * (1 / ws)) * damp)

/-- The horizontal-velocity update iterated over `n` ticks of zero input. -/
noncomputable def velIter (dt ws damp : ℝ) : ℕ → ℝ × ℝ → ℝ × ℝ
  | 0, v => v
  | n + 1, v => velIter dt ws damp n (velStep dt ws damp (0, 0) v)

/-- The Euclidean magnitude of a velocity vector. -/
noncomputable def vmag (v : ℝ × ℝ) : ℝ := Real.sqrt (v.1 ^ 2 + v.2 ^ 2)

/-! ### Derived predicates used by the theorems -/

/-- The collision floor at the player's position (lines 226-227 and 266-267):
terrain height, scaled by world scale, plus the scaled eye offset 40. -/
def floorAt (infinite : Bool) (W H : ℕ) (hm : ℕ → ℕ → ℕ) (ws : ℚ)
    (p : Player) : ℚ :=
  ((collisionCheck infinite W H hm p.pos.1 p.pos.2 : ℕ) : ℚ) * ws + 40 * ws

/-- Well-formedness of a chronological list of painted spans below a ceiling
`top`, ending with the current y_buffer value `y`: every span `(l, h)` covers
rows l, ..., h-1 with 0 ≤ l < h ≤ top, each later span lies strictly below
the low end of the one before it, and `y` is at most the low end of the last
span (or at most `top` when nothing was painted). -/
def Desc : ℤ → List (ℤ × ℤ) → ℤ → Prop
  | top, [], y => y ≤ top
  | top, (l, h) :: rest, y => 0 ≤ l ∧ l < h ∧ h ≤ top ∧ Desc l rest y

/-- The march invariant: before first contact the y_buffer entry still holds
screen_height and nothing is painted, and the painted spans form a
descending well-formed chain under screen_height ending at the current
y_buffer entry. -/
def MarchInv (sh : ℤ) (st : MarchState) : Prop :=
  (st.first = false → st.yBuf = sh ∧ st.paints = []) ∧ Desc sh st.paints st.yBuf

end VoxelEngine

namespace VoxelEngine

/-! ### Frame lemmas for the update_player phases -/

theorem lookAndMove_frame (env : FloatEnv) (k : Keys) (mouse : ℚ × ℚ)
    (dt ws : ℚ) (p : Player) :
    (lookAndMove env k mouse dt ws p).height = p.height ∧
    (lookAndMove env k mouse dt ws p).v_vel = p.v_vel ∧
    (lookAndMove env k mouse dt ws p).flying = p.flying ∧
    (lookAndMove env k mouse dt ws p).last_space_press = p.last_space_press ∧
    (lookAndMove env k mouse dt ws p).space_pressed_prev = p.space_pressed_prev ∧
    (lookAndMove env k mouse dt ws p).is_on_ground = p.is_on_ground ∧
    (lookAndMove env k mouse dt ws p).velocity_y = p.velocity_y ∧
    (lookAndMove env k mouse dt ws p).jump_force = p.jump_force ∧
    (lookAndMove env k mouse dt ws p).gravity = p.gravity :=
  ⟨rfl, rfl, rfl, rfl, rfl, rfl, rfl, rfl, rfl⟩

theorem clampPos_frame (infinite : Bool) (W H : ℕ) (p : Player) :
    (clampPos infinite W H p).height = p.height ∧
    (clampPos infinite W H p).v_vel = p.v_vel ∧
    (clampPos infinite W H p).flying = p.flying ∧
    (clampPos infinite W H p).last_space_press = p.last_space_press ∧
    (clampPos infinite W H p).space_pressed_prev = p.space_pressed_prev ∧
    (clampPos infinite W H p).is_on_ground = p.is_on_ground ∧
    (clampPos infinite W H p).velocity_y = p.velocity_y ∧
    (clampPos infinite W H p).jump_force = p.jump_force ∧
    (clampPos infinite W H p).gravity = p.gravity := by
  unfold clampPos
  split
  · exact ⟨rfl, rfl, rfl, rfl, rfl, rfl, rfl, rfl, rfl⟩
  · exact ⟨rfl, rfl, rfl, rfl, rfl, rfl, rfl, rfl, rfl⟩

theorem verticalMove_frame (k : Keys) (dt ws damp : ℚ) (p : Player) :
    (verticalMove k dt ws damp p).pos = p.pos ∧
    (verticalMove k dt ws damp p).flying = p.flying ∧
    (verticalMove k dt ws damp p).last_space_press = p.last_space_press ∧
    (verticalMove k dt ws damp p).space_pressed_prev = p.space_pressed_prev ∧
    (verticalMove k dt ws damp p).is_on_ground = p.is_on_ground ∧
    (verticalMove k dt ws damp p).velocity_y = p.velocity_y ∧
    (verticalMove k dt ws damp p).jump_force = p.jump_force ∧
    (verticalMove k dt ws damp p).gravity = p.gravity :=
  ⟨rfl, rfl, rfl, rfl, rfl, rfl, rfl, rfl⟩

theorem collide1_frame (infinite : Bool) (W H : ℕ) (hm : ℕ → ℕ → ℕ) (ws : ℚ)
    (p : Player) :
    (collide1 infinite W H hm ws p).pos = p.pos ∧
    (collide1 infinite W H hm ws p).flying = p.flying ∧
    (collide1 infinite W H hm ws p).last_space_press = p.last_space_press ∧
    (collide1 infinite W H hm ws p).space_pressed_prev = p.space_pressed_prev ∧
    (collide1 infinite W H hm ws p).is_on_ground = p.is_on_ground ∧
    (collide1 infinite W H hm ws p).velocity_y = p.velocity_y ∧
    (collide1 infinite W H hm ws p).jump_force = p.jump_force ∧
    (collide1 infinite W H hm ws p).gravity = p.gravity := by
  simp only [collide1]
  split_ifs <;> exact ⟨rfl, rfl, rfl, rfl, rfl, rfl, rfl, rfl⟩

theorem pitchStep_frame (k : Keys) (dt pitchDamp : ℚ) (p : Player) :
    (pitchStep k dt pitchDamp p).pos = p.pos ∧
    (pitchStep k dt pitchDamp p).height = p.height ∧
    (pitchStep k dt pitchDamp p).flying = p.flying ∧
    (pitchStep k dt pitchDamp p).last_space_press = p.last_space_press ∧
    (pitchStep k dt pitchDamp p).space_pressed_prev = p.space_pressed_prev ∧
    (pitchStep k dt pitchDamp p).is_on_ground = p.is_on_ground ∧
    (pitchStep k dt pitchDamp p).velocity_y = p.velocity_y ∧
    (pitchStep k dt pitchDamp p).jump_force = p.jump_force ∧
    (pitchStep k dt pitchDamp p).gravity = p.gravity :=
  ⟨rfl, rfl, rfl, rfl, rfl, rfl, rfl, rfl, rfl⟩

theorem flyToggle_frame (k : Keys) (now : ℤ) (ws : ℚ) (p : Player) :
    (flyToggle k now ws p).pos = p.pos ∧
    (flyToggle k now ws p).height = p.height ∧
    (flyToggle k now ws p).gravity = p.gravity := by
  unfold flyToggle
  split_ifs <;> exact ⟨rfl, rfl, rfl⟩

theorem gravityStep_pos (infinite : Bool) (W H : ℕ) (hm : ℕ → ℕ → ℕ)
    (dt ws : ℚ) (p : Player) :
    (gravityStep infinite W H hm dt ws p).pos = p.pos := by
  simp only [gravityStep]
  split_ifs <;> rfl

/-! ### Collision floor lemmas -/

theorem floorAt_congr (infinite : Bool) (W H : ℕ) (hm : ℕ → ℕ → ℕ) (ws : ℚ)
    (p q : Player) (h : p.pos = q.pos) :
    floorAt infinite W H hm ws p = floorAt infinite W H hm ws q := by
  unfold floorAt
  rw [h]

theorem collide1_floor (infinite : Bool) (W H : ℕ) (hm : ℕ → ℕ → ℕ) (ws : ℚ)
    (p : Player) :
    floorAt infinite W H hm ws (collide1 infinite W H hm ws p)
      ≤ (collide1 infinite W H hm ws p).height := by
  have hpos : (collide1 infinite W H hm ws p).pos = p.pos :=
    (collide1_frame infinite W H hm ws p).1
  rw [floorAt_congr infinite W H hm ws _ p hpos]
  simp only [collide1, floorAt]
  split_ifs with h
  · exact le_refl _
  · exact le_of_not_lt h

theorem gravityStep_floor (infinite : Bool) (W H : ℕ) (hm : ℕ → ℕ → ℕ)
    (dt ws : ℚ) (p : Player)
    (h : floorAt infinite W H hm ws p ≤ p.height) :
    floorAt infinite W H hm ws (gravityStep infinite W H hm dt ws p)
      ≤ (gravityStep infinite W H hm dt ws p).height := by
  rw [floorAt_congr infinite W H hm ws _ p (gravityStep_pos infinite W H hm dt ws p)]
  simp only [gravityStep, floorAt]
  split_ifs with hf hlt
  · exact h
  · exact le_refl _
  · exact le_of_not_lt hlt

/-- Claim C1: for every tick and every input, after update_player returns the
player's eye height satisfies
eyeHeight ≥ sampleHeight(position) * worldScale + 40 * worldScale, where
sampleHeight applies the configured boundary policy (wrap or clamp) to the
player's position. -/
theorem C1_collision_invariant (infinite : Bool) (W H : ℕ) (hm : ℕ → ℕ → ℕ)
    (env : FloatEnv) (k : Keys) (mouse : ℚ × ℚ) (now : ℤ) (dt ws : ℚ)
    (p : Player) :
    ((collisionCheck infinite W H hm
        (updatePlayer infinite W H hm env k mouse now dt ws p).pos.1
        (updatePlayer infinite W H hm env k mouse now dt ws p).pos.2 : ℕ) : ℚ) * ws
      + 40 * ws
      ≤ (updatePlayer infinite W H hm env k mouse now dt ws p).height := by
  have key : floorAt infinite W H hm ws (updatePlayer infinite W H hm env k mouse now dt ws p)
      ≤ (updatePlayer infinite W H hm env k mouse now dt ws p).height := by
    unfold updatePlayer
    set p4 := collide1 infinite W H hm ws
      (verticalMove k dt ws env.damp
        (clampPos infinite W H (lookAndMove env k mouse dt ws p))) with hp4
    set p5 := pitchStep k dt env.pitchDamp p4 with hp5
    set p6 := flyToggle k now ws p5 with hp6
    have h4 : floorAt infinite W H hm ws p4 ≤ p4.height := by
      rw [hp4]; exact collide1_floor infinite W H hm ws _
    have h5pos : p5.pos = p4.pos := (pitchStep_frame k dt env.pitchDamp p4).1
    have h5h : p5.height = p4.height := (pitchStep_frame k dt env.pitchDamp p4).2.1
    have h6pos : p6.pos = p5.pos := (flyToggle_frame k now ws p5).1
    have h6h : p6.height = p5.height := (flyToggle_frame k now ws p5).2.1
    have h6 : floorAt infinite W H hm ws p6 ≤ p6.height := by
      rw [floorAt_congr infinite W H hm ws p6 p4 (h6pos.trans h5pos), h6h, h5h]
      exact h4
    exact gravityStep_floor infinite W H hm dt ws p6 h6
  exact key

end VoxelEngine

namespace VoxelEngine

/-! ### Boundary clamp: claim C5 -/

theorem clampPos_false_pos (W H : ℕ) (p : Player) :
    (clampPos false W H p).pos =
      (if p.pos.1 < 0 then (0 : ℚ)
         else if (W : ℚ) ≤ p.pos.1 then (W : ℚ) - 1 else p.pos.1,
       if p.pos.2 < 0 then (0 : ℚ)
         else if (H : ℚ) ≤ p.pos.2 then (H : ℚ) - 1 else p.pos.2) := rfl

theorem clampPos_false_vel (W H : ℕ) (p : Player) :
    (clampPos false W H p).vel =
      (if p.pos.1 < 0 then max 0 p.vel.1
         else if (W : ℚ) ≤ p.pos.1 then min 0 p.vel.1 else p.vel.1,
       if p.pos.2 < 0 then max 0 p.vel.2
         else if (H : ℚ) ≤ p.pos.2 then min 0 p.vel.2 else p.vel.2) := rfl

theorem clampCoord_range (n : ℕ) (hn : 1 ≤ n) (x : ℚ) :
    0 ≤ (if x < 0 then (0 : ℚ) else if (n : ℚ) ≤ x then (n : ℚ) - 1 else x) ∧
    (if x < 0 then (0 : ℚ) else if (n : ℚ) ≤ x then (n : ℚ) - 1 else x) < n := by
  have h1 : (1 : ℚ) ≤ (n : ℚ) := by exact_mod_cast hn
  split_ifs with ha hb
  · exact ⟨le_refl 0, by linarith⟩
  · exact ⟨by linarith, by linarith⟩
  · exact ⟨le_of_not_lt ha, lt_of_not_le hb⟩

theorem updatePlayer_pos_clamp (infinite : Bool) (W H : ℕ) (hm : ℕ → ℕ → ℕ)
    (env : FloatEnv) (k : Keys) (mouse : ℚ × ℚ) (now : ℤ) (dt ws : ℚ)
    (p : Player) :
    (updatePlayer infinite W H hm env k mouse now dt ws p).pos =
      (clampPos infinite W H (lookAndMove env k mouse dt ws p)).pos := by
  unfold updatePlayer
  rw [gravityStep_pos, (flyToggle_frame _ _ _ _).1, (pitchStep_frame _ _ _ _).1,
    (collide1_frame _ _ _ _ _ _).1, (verticalMove_frame _ _ _ _ _).1]

/-- Claim C5 counterexample: with a 4 x 4 map in clamp mode, a tick of
duration dt = 1/60 at yaw 0 carries the player from x = 3 to x = 3.5; the
boundary step leaves 3.5 unchanged, so the final position is not inside
[0, W-1] even though the claim says it always is. -/
theorem C5_counterexample :
    ((updatePlayer false 4 4 (fun _ _ => 0) ⟨4/5, 9/10, 1, 0, 1⟩
        ⟨false, false, false, false, false, false, false, false, false, false⟩
        (0, 0) 0 (1/60) 1
        ⟨(3, 2), 100, (0, 5/8), 0, 0, 0, true, 0, false, 0, 3/500, false, 0,
          9/10, 12⟩).pos.1 = 7/2) ∧
    ¬((updatePlayer false 4 4 (fun _ _ => 0) ⟨4/5, 9/10, 1, 0, 1⟩
        ⟨false, false, false, false, false, false, false, false, false, false⟩
        (0, 0) 0 (1/60) 1
        ⟨(3, 2), 100, (0, 5/8), 0, 0, 0, true, 0, false, 0, 3/500, false, 0,
          9/10, 12⟩).pos.1 ≤ (4 : ℚ) - 1) := by
  have hlm : (lookAndMove ⟨4/5, 9/10, 1, 0, 1⟩
      ⟨false, false, false, false, false, false, false, false, false, false⟩
      (0, 0) (1/60) 1
      ⟨(3, 2), 100, (0, 5/8), 0, 0, 0, true, 0, false, 0, 3/500, false, 0,
        9/10, 12⟩).pos = (7/2, 2) := by
    norm_num [lookAndMove, normalizeVec, inputVec, ACCELERATION,
      PITCH_MIN, PITCH_MAX]
  have hup := updatePlayer_pos_clamp false 4 4 (fun _ _ => 0)
    ⟨4/5, 9/10, 1, 0, 1⟩
    ⟨false, false, false, false, false, false, false, false, false, false⟩
    (0, 0) 0 (1/60) 1
    ⟨(3, 2), 100, (0, 5/8), 0, 0, 0, true, 0, false, 0, 3/500, false, 0,
      9/10, 12⟩
  rw [clampPos_false_pos, hlm] at hup
  rw [hup]
  norm_num

/-- Claim C5 (amended): in clamp mode, after the boundary step of every
update_player call the position lies in the half-open box
[0, W) x [0, H) (not [0, W-1] x [0, H-1]); and when a coordinate is clamped
at a boundary, the outward velocity component on that axis is cut: made
non-negative at the low edge and non-positive at the high edge. -/
theorem C5_amended_clamp (W H : ℕ) (hm : ℕ → ℕ → ℕ) (env : FloatEnv)
    (k : Keys) (mouse : ℚ × ℚ) (now : ℤ) (dt ws : ℚ) (p : Player)
    (hW : 1 ≤ W) (hH : 1 ≤ H) :
    (0 ≤ (updatePlayer false W H hm env k mouse now dt ws p).pos.1 ∧
     (updatePlayer false W H hm env k mouse now dt ws p).pos.1 < W ∧
     0 ≤ (updatePlayer false W H hm env k mouse now dt ws p).pos.2 ∧
     (updatePlayer false W H hm env k mouse now dt ws p).pos.2 < H) ∧
    ((lookAndMove env k mouse dt ws p).pos.1 < 0 →
      (clampPos false W H (lookAndMove env k mouse dt ws p)).pos.1 = 0 ∧
      0 ≤ (clampPos false W H (lookAndMove env k mouse dt ws p)).vel.1) ∧
    ((W : ℚ) ≤ (lookAndMove env k mouse dt ws p).pos.1 →
      (clampPos false W H (lookAndMove env k mouse dt ws p)).pos.1 = (W : ℚ) - 1 ∧
      (clampPos false W H (lookAndMove env k mouse dt ws p)).vel.1 ≤ 0) ∧
    ((lookAndMove env k mouse dt ws p).pos.2 < 0 →
      (clampPos false W H (lookAndMove env k mouse dt ws p)).pos.2 = 0 ∧
      0 ≤ (clampPos false W H (lookAndMove env k mouse dt ws p)).vel.2) ∧
    ((H : ℚ) ≤ (lookAndMove env k mouse dt ws p).pos.2 →
      (clampPos false W H (lookAndMove env k mouse dt ws p)).pos.2 = (H : ℚ) - 1 ∧
      (clampPos false W H (lookAndMove env k mouse dt ws p)).vel.2 ≤ 0) := by
  set q := lookAndMove env k mouse dt ws p with hq
  refine ⟨?_, ?_, ?_, ?_, ?_⟩
  · rw [updatePlayer_pos_clamp false W H hm env k mouse now dt ws p, ← hq,
      clampPos_false_pos W H q]
    obtain ⟨h1, h2⟩ := clampCoord_range W hW q.pos.1
    obtain ⟨h3, h4⟩ := clampCoord_range H hH q.pos.2
    exact ⟨h1, h2, h3, h4⟩
  · intro h
    refine ⟨?_, ?_⟩
    · rw [clampPos_false_pos W H q]
      show (if q.pos.1 < 0 then (0 : ℚ)
          else if (W : ℚ) ≤ q.pos.1 then (W : ℚ) - 1 else q.pos.1) = 0
      rw [if_pos h]
    · rw [clampPos_false_vel W H q]
      show 0 ≤ (if q.pos.1 < 0 then max 0 q.vel.1
          else if (W : ℚ) ≤ q.pos.1 then min 0 q.vel.1 else q.vel.1)
      rw [if_pos h]
      exact le_max_left 0 q.vel.1
  · intro h
    have h0 : ¬(q.pos.1 < 0) := not_lt.mpr (le_trans (by positivity) h)
    refine ⟨?_, ?_⟩
    · rw [clampPos_false_pos W H q]
      show (if q.pos.1 < 0 then (0 : ℚ)
          else if (W : ℚ) ≤ q.pos.1 then (W : ℚ) - 1 else q.pos.1) = (W : ℚ) - 1
      rw [if_neg h0, if_pos h]
    · rw [clampPos_false_vel W H q]
      show (if q.pos.1 < 0 then max 0 q.vel.1
          else if (W : ℚ) ≤ q.pos.1 then min 0 q.vel.1 else q.vel.1) ≤ 0
      rw [if_neg h0, if_pos h]
      exact min_le_left 0 q.vel.1
  · intro h
    refine ⟨?_, ?_⟩
    · rw [clampPos_false_pos W H q]
      show (if q.pos.2 < 0 then (0 : ℚ)
          else if (H : ℚ) ≤ q.pos.2 then (H : ℚ) - 1 else q.pos.2) = 0
      rw [if_pos h]
    · rw [clampPos_false_vel W H q]
      show 0 ≤ (if q.pos.2 < 0 then max 0 q.vel.2
          else if (H : ℚ) ≤ q.pos.2 then min 0 q.vel.2 else q.vel.2)
      rw [if_pos h]
      exact le_max_left 0 q.vel.2
  · intro h
    have h0 : ¬(q.pos.2 < 0) := not_lt.mpr (le_trans (by positivity) h)
    refine ⟨?_, ?_⟩
    · rw [clampPos_false_pos W H q]
      show (if q.pos.2 < 0 then (0 : ℚ)
          else if (H : ℚ) ≤ q.pos.2 then (H : ℚ) - 1 else q.pos.2) = (H : ℚ) - 1
      rw [if_neg h0, if_pos h]
    · rw [clampPos_false_vel W H q]
      show (if q.pos.2 < 0 then max 0 q.vel.2
          else if (H : ℚ) ≤ q.pos.2 then min 0 q.vel.2 else q.vel.2) ≤ 0
      rw [if_neg h0, if_pos h]
      exact min_le_left 0 q.vel.2

/-- Witness for the amended claim C5 at a concrete input. -/
theorem C5_amended_clamp_witness :
    (1 ≤ 4 ∧ 1 ≤ 3) ∧
    (0 ≤ (updatePlayer false 4 3 (fun _ _ => 0) ⟨1, 1, 1, 0, 1⟩
        ⟨false, false, false, false, false, false, false, false, false, false⟩
        (0, 0) 0 0 1
        (createPlayer false 4 3 (fun _ _ => 0) 0)).pos.1 ∧
     (updatePlayer false 4 3 (fun _ _ => 0) ⟨1, 1, 1, 0, 1⟩
        ⟨false, false, false, false, false, false, false, false, false, false⟩
        (0, 0) 0 0 1
        (createPlayer false 4 3 (fun _ _ => 0) 0)).pos.1 < 4) := by
  have h := C5_amended_clamp 4 3 (fun _ _ => 0) ⟨1, 1, 1, 0, 1⟩
    ⟨false, false, false, false, false, false, false, false, false, false⟩
    (0, 0) 0 0 1 (createPlayer false 4 3 (fun _ _ => 0) 0)
    (by decide) (by decide)
  exact ⟨⟨by decide, by decide⟩, h.1.1, h.1.2.1⟩

/-! ### Draw distance: claim C6 -/

/-- Claim C6 counterexample: the startup draw distance is
DRAW_DISTANCE = 5000, which already violates the claimed bound
draw distance ∈ [500, 3000], so the bound does not hold from startup
onward. -/
theorem C6_counterexample : DRAW_DISTANCE = 5000 ∧ ¬(DRAW_DISTANCE ≤ 3000) := by
  decide

/-- Claim C6 (amended): the draw distance starts at DRAW_DISTANCE = 5000,
outside [500, 3000]; each tick the increase key sets d := min(3000, d+50)
and the decrease key d := max(500, d-50), and the interval [500, 3000] is
invariant under the per-tick update, so the bound holds from the first
moment the value is inside the interval — not from startup. -/
theorem C6_amended_bounds (u pdn : Bool) (d : ℤ) (h5 : 500 ≤ d)
    (h3 : d ≤ 3000) :
    (500 ≤ updateDrawDistance u pdn d ∧ updateDrawDistance u pdn d ≤ 3000) ∧
    updateDrawDistance true false d = min 3000 (d + 50) ∧
    updateDrawDistance false true d = max 500 (d - 50) := by
  refine ⟨?_, rfl, rfl⟩
  simp only [updateDrawDistance]
  split_ifs <;> constructor <;> omega

/-- Witness for the amended claim C6 at a concrete input. -/
theorem C6_amended_bounds_witness :
    ((500 : ℤ) ≤ 1000 ∧ (1000 : ℤ) ≤ 3000) ∧
    (500 ≤ updateDrawDistance true false 1000 ∧
      updateDrawDistance true false 1000 ≤ 3000) := by
  have h := C6_amended_bounds true false 1000 (by decide) (by decide)
  exact ⟨⟨by decide, by decide⟩, h.1⟩

end VoxelEngine

namespace VoxelEngine

/-! ### Flying toggle: claims C2 and C10 -/

theorem flyToggle_edge_double (k : Keys) (now : ℤ) (ws : ℚ) (p : Player)
    (hfly : p.flying = false) (hsp : k.space = true)
    (hprev : p.space_pressed_prev = false)
    (htime : now - p.last_space_press < 300) :
    flyToggle k now ws p =
      { p with flying := true, velocity_y := 0,
               last_space_press := now, space_pressed_prev := true } := by
  simp [flyToggle, hfly, hsp, hprev, htime]

theorem flyToggle_edge_single (k : Keys) (now : ℤ) (ws : ℚ) (p : Player)
    (hfly : p.flying = false) (hsp : k.space = true)
    (hprev : p.space_pressed_prev = false)
    (htime : ¬(now - p.last_space_press < 300)) (hg : p.is_on_ground = true) :
    flyToggle k now ws p =
      { p with velocity_y := p.jump_force * (1 / ws), is_on_ground := false,
               last_space_press := now, space_pressed_prev := true } := by
  simp [flyToggle, hfly, hsp, hprev, htime, hg]

theorem flyToggle_no_edge (k : Keys) (now : ℤ) (ws : ℚ) (p : Player)
    (hprev : p.space_pressed_prev = true) :
    flyToggle k now ws p = { p with space_pressed_prev := k.space } := by
  simp [flyToggle, hprev]

theorem gravityStep_flying_id (infinite : Bool) (W H : ℕ) (hm : ℕ → ℕ → ℕ)
    (dt ws : ℚ) (p : Player) (h : p.flying = true) :
    gravityStep infinite W H hm dt ws p = p := by
  simp [gravityStep, h]

theorem preToggle_fields (infinite : Bool) (W H : ℕ) (hm : ℕ → ℕ → ℕ)
    (env : FloatEnv) (k : Keys) (mouse : ℚ × ℚ) (dt ws : ℚ) (p : Player) :
    (pitchStep k dt env.pitchDamp (collide1 infinite W H hm ws
      (verticalMove k dt ws env.damp (clampPos infinite W H
        (lookAndMove env k mouse dt ws p))))).flying = p.flying ∧
    (pitchStep k dt env.pitchDamp (collide1 infinite W H hm ws
      (verticalMove k dt ws env.damp (clampPos infinite W H
        (lookAndMove env k mouse dt ws p))))).space_pressed_prev
      = p.space_pressed_prev ∧
    (pitchStep k dt env.pitchDamp (collide1 infinite W H hm ws
      (verticalMove k dt ws env.damp (clampPos infinite W H
        (lookAndMove env k mouse dt ws p))))).last_space_press
      = p.last_space_press := by
  obtain ⟨-, -, a1, a2, a3, -, -, -, -⟩ := lookAndMove_frame env k mouse dt ws p
  obtain ⟨-, -, b1, b2, b3, -, -, -, -⟩ :=
    clampPos_frame infinite W H (lookAndMove env k mouse dt ws p)
  obtain ⟨-, c1, c2, c3, -, -, -, -⟩ :=
    verticalMove_frame k dt ws env.damp
      (clampPos infinite W H (lookAndMove env k mouse dt ws p))
  obtain ⟨-, d1, d2, d3, -, -, -, -⟩ :=
    collide1_frame infinite W H hm ws (verticalMove k dt ws env.damp
      (clampPos infinite W H (lookAndMove env k mouse dt ws p)))
  obtain ⟨-, -, e1, e2, e3, -, -, -, -⟩ :=
    pitchStep_frame k dt env.pitchDamp (collide1 infinite W H hm ws
      (verticalMove k dt ws env.damp (clampPos infinite W H
        (lookAndMove env k mouse dt ws p))))
  refine ⟨?_, ?_, ?_⟩
  · rw [e1, d1, c1, b1, a1]
  · rw [e3, d3, c3, b3, a3]
  · rw [e2, d2, c2, b2, a2]

/-- Claim C2 counterexample: a grounded double tap, two space down-edges
100 ms apart (ticks at 1000 ms and 1100 ms with a release tick between
them, dt = 0 so nothing else moves).  The pair of edges does toggle flying
on with verticalVelocity 0 afterwards, but the claim's assertion that the
double tap does not apply JUMP_FORCE is false: the first edge applies the
full jump impulse, leaving velocity_y = 12 = JUMP_FORCE after the first
call. -/
theorem C2_counterexample :
    ((updatePlayer false 4 4 (fun _ _ => 0) ⟨1, 1, 1, 0, 1⟩
        ⟨false, false, false, false, true, false, false, false, false, false⟩
        (0, 0) 1000 0 1 (createPlayer false 4 4 (fun _ _ => 0) 0)).velocity_y
      = 12) ∧
    ¬((updatePlayer false 4 4 (fun _ _ => 0) ⟨1, 1, 1, 0, 1⟩
        ⟨false, false, false, false, true, false, false, false, false, false⟩
        (0, 0) 1000 0 1 (createPlayer false 4 4 (fun _ _ => 0) 0)).velocity_y
      = 0) ∧
    ((1100 : ℤ) - 1000 < 300) ∧
    ((updatePlayer false 4 4 (fun _ _ => 0) ⟨1, 1, 1, 0, 1⟩
        ⟨false, false, false, false, true, false, false, false, false, false⟩
        (0, 0) 1100 0 1
        (updatePlayer false 4 4 (fun _ _ => 0) ⟨1, 1, 1, 0, 1⟩
          ⟨false, false, false, false, false, false, false, false, false, false⟩
          (0, 0) 1050 0 1
          (updatePlayer false 4 4 (fun _ _ => 0) ⟨1, 1, 1, 0, 1⟩
            ⟨false, false, false, false, true, false, false, false, false, false⟩
            (0, 0) 1000 0 1
            (createPlayer false 4 4 (fun _ _ => 0) 0)))).flying = true) ∧
    ((updatePlayer false 4 4 (fun _ _ => 0) ⟨1, 1, 1, 0, 1⟩
        ⟨false, false, false, false, true, false, false, false, false, false⟩
        (0, 0) 1100 0 1
        (updatePlayer false 4 4 (fun _ _ => 0) ⟨1, 1, 1, 0, 1⟩
          ⟨false, false, false, false, false, false, false, false, false, false⟩
          (0, 0) 1050 0 1
          (updatePlayer false 4 4 (fun _ _ => 0) ⟨1, 1, 1, 0, 1⟩
            ⟨false, false, false, false, true, false, false, false, false, false⟩
            (0, 0) 1000 0 1
            (createPlayer false 4 4 (fun _ _ => 0) 0)))).velocity_y = 0) := by
  have h0 : createPlayer false 4 4 (fun _ _ => 0) 0 =
      ⟨(2, 2), 40, (0, 0), 0, 0, 0, false, 0, false, 0, 3/500, true, 0,
        9/10, 12⟩ := by
    norm_num [createPlayer, collisionCheck]
  have h1 : updatePlayer false 4 4 (fun _ _ => 0) ⟨1, 1, 1, 0, 1⟩
      ⟨false, false, false, false, true, false, false, false, false, false⟩
      (0, 0) 1000 0 1 (createPlayer false 4 4 (fun _ _ => 0) 0) =
      ⟨(2, 2), 40, (0, 0), 0, 0, 0, false, 1000, true, 0, 3/500, false, 12,
        9/10, 12⟩ := by
    rw [h0]
    norm_num [updatePlayer, gravityStep, flyToggle, pitchStep, collide1,
      verticalMove, clampPos, lookAndMove, normalizeVec, inputVec,
      collisionCheck, ACCELERATION, PITCH_ACCEL, PITCH_MIN, PITCH_MAX]
  have h2 : updatePlayer false 4 4 (fun _ _ => 0) ⟨1, 1, 1, 0, 1⟩
      ⟨false, false, false, false, false, false, false, false, false, false⟩
      (0, 0) 1050 0 1
      (⟨(2, 2), 40, (0, 0), 0, 0, 0, false, 1000, true, 0, 3/500, false, 12,
        9/10, 12⟩ : Player) =
      ⟨(2, 2), 40, (0, 0), 0, 0, 0, false, 1000, false, 0, 3/500, false, 12,
        9/10, 12⟩ := by
    norm_num [updatePlayer, gravityStep, flyToggle, pitchStep, collide1,
      verticalMove, clampPos, lookAndMove, normalizeVec, inputVec,
      collisionCheck, ACCELERATION, PITCH_ACCEL, PITCH_MIN, PITCH_MAX]
  have h3 : updatePlayer false 4 4 (fun _ _ => 0) ⟨1, 1, 1, 0, 1⟩
      ⟨false, false, false, false, true, false, false, false, false, false⟩
      (0, 0) 1100 0 1
      (⟨(2, 2), 40, (0, 0), 0, 0, 0, false, 1000, false, 0, 3/500, false, 12,
        9/10, 12⟩ : Player) =
      ⟨(2, 2), 40, (0, 0), 0, 0, 0, true, 1100, true, 0, 3/500, false, 0,
        9/10, 12⟩ := by
    norm_num [updatePlayer, gravityStep, flyToggle, pitchStep, collide1,
      verticalMove, clampPos, lookAndMove, normalizeVec, inputVec,
      collisionCheck, ACCELERATION, PITCH_ACCEL, PITCH_MIN, PITCH_MAX]
  refine ⟨?_, ?_, by decide, ?_, ?_⟩
  · rw [h1]
  · rw [h1]; norm_num
  · rw [h1, h2, h3]
  · rw [h1, h2, h3]

end VoxelEngine

namespace VoxelEngine

/-- Claim C2 (amended): while not flying, on a space down-edge less than
300 ms after the previous registered press the player enters flying mode
with verticalVelocity 0 and that toggling edge applies no jump impulse; on
a down-edge at least 300 ms after the previous press, when grounded, it
sets verticalVelocity = JUMP_FORCE / worldScale and clears grounded — so
the first edge of a grounded double tap does apply JUMP_FORCE, which
entering flying then zeroes; and a held key without a new down-edge changes
nothing but the recorded key level, so the impulse is applied exactly once
per down-edge. -/
theorem C2_amended_double_tap (k : Keys) (now : ℤ) (ws : ℚ) (p : Player)
    (hfly : p.flying = false) (hsp : k.space = true) :
    (p.space_pressed_prev = false → now - p.last_space_press < 300 →
      (flyToggle k now ws p).flying = true ∧
      (flyToggle k now ws p).velocity_y = 0) ∧
    (p.space_pressed_prev = false → ¬(now - p.last_space_press < 300) →
      p.is_on_ground = true →
      (flyToggle k now ws p).velocity_y = p.jump_force * (1 / ws) ∧
      (flyToggle k now ws p).is_on_ground = false ∧
      (flyToggle k now ws p).flying = false) ∧
    (p.space_pressed_prev = true → flyToggle k now ws p = p) := by
  refine ⟨?_, ?_, ?_⟩
  · intro hprev ht
    rw [flyToggle_edge_double k now ws p hfly hsp hprev ht]
    exact ⟨rfl, rfl⟩
  · intro hprev ht hg
    rw [flyToggle_edge_single k now ws p hfly hsp hprev ht hg]
    exact ⟨rfl, rfl, hfly⟩
  · intro hprev
    rw [flyToggle_no_edge k now ws p hprev, hsp, ← hprev]

/-- Witness for the amended claim C2 at a concrete input. -/
theorem C2_amended_double_tap_witness :
    ((createPlayer false 4 4 (fun _ _ => 0) 0).flying = false ∧
     (Keys.mk false false false false true false false false false false).space
       = true) ∧
    ((createPlayer false 4 4 (fun _ _ => 0) 0).space_pressed_prev = false →
      (100 : ℤ) - (createPlayer false 4 4 (fun _ _ => 0) 0).last_space_press
        < 300 →
      (flyToggle (Keys.mk false false false false true false false false
          false false) 100 1 (createPlayer false 4 4 (fun _ _ => 0) 0)).flying
        = true ∧
      (flyToggle (Keys.mk false false false false true false false false
          false false) 100 1
        (createPlayer false 4 4 (fun _ _ => 0) 0)).velocity_y = 0) :=
  ⟨⟨rfl, rfl⟩,
    (C2_amended_double_tap
      (Keys.mk false false false false true false false false false false)
      100 1 (createPlayer false 4 4 (fun _ _ => 0) 0) rfl rfl).1⟩

/-- Claim C10: because last_space_press is initialized to 0 at player
creation, the very first space down-edge after program start, if it occurs
less than 300 ms after startup, is treated as the second tap of a double
tap: it toggles flying on and applies no jump impulse (velocity_y stays 0),
even though only one press occurred. -/
theorem C10_first_press_toggles_flying (infinite : Bool) (W H : ℕ)
    (hm : ℕ → ℕ → ℕ) (angle0 : ℚ) (env : FloatEnv) (k : Keys)
    (mouse : ℚ × ℚ) (now : ℤ) (dt ws : ℚ)
    (hsp : k.space = true) (hnow : 0 ≤ now) (hlt : now < 300) :
    (updatePlayer infinite W H hm env k mouse now dt ws
      (createPlayer infinite W H hm angle0)).flying = true ∧
    (updatePlayer infinite W H hm env k mouse now dt ws
      (createPlayer infinite W H hm angle0)).velocity_y = 0 := by
  unfold updatePlayer
  set p0 := createPlayer infinite W H hm angle0 with hp0
  set q := pitchStep k dt env.pitchDamp (collide1 infinite W H hm ws
    (verticalMove k dt ws env.damp (clampPos infinite W H
      (lookAndMove env k mouse dt ws p0)))) with hq
  obtain ⟨hfly, hprev, hlast⟩ :=
    preToggle_fields infinite W H hm env k mouse dt ws p0
  rw [← hq] at hfly hprev hlast
  have hfly0 : q.flying = false := by rw [hfly, hp0]; rfl
  have hprev0 : q.space_pressed_prev = false := by rw [hprev, hp0]; rfl
  have htime : now - q.last_space_press < 300 := by
    rw [hlast, hp0]
    show now - (0 : ℤ) < 300
    omega
  rw [flyToggle_edge_double k now ws q hfly0 hsp hprev0 htime]
  rw [gravityStep_flying_id infinite W H hm dt ws _ rfl]
  exact ⟨rfl, rfl⟩

/-- Witness for claim C10 at a concrete input. -/
theorem C10_first_press_toggles_flying_witness :
    ((Keys.mk false false false false true false false false false
        false).space = true ∧ (0 : ℤ) ≤ 150 ∧ (150 : ℤ) < 300) ∧
    ((updatePlayer false 4 4 (fun _ _ => 0) ⟨1, 1, 1, 0, 1⟩
        (Keys.mk false false false false true false false false false false)
        (0, 0) 150 0 1 (createPlayer false 4 4 (fun _ _ => 0) 0)).flying
      = true ∧
     (updatePlayer false 4 4 (fun _ _ => 0) ⟨1, 1, 1, 0, 1⟩
        (Keys.mk false false false false true false false false false false)
        (0, 0) 150 0 1 (createPlayer false 4 4 (fun _ _ => 0) 0)).velocity_y
      = 0) :=
  ⟨⟨rfl, by decide, by decide⟩,
    C10_first_press_toggles_flying false 4 4 (fun _ _ => 0) 0 ⟨1, 1, 1, 0, 1⟩
      (Keys.mk false false false false true false false false false false)
      (0, 0) 150 0 1 rfl (by decide) (by decide)⟩

end VoxelEngine

namespace VoxelEngine

/-! ### Horizon buffer machinery: claims C3, C4, C9 -/

theorem Desc_nil (top y : ℤ) : Desc top [] y ↔ y ≤ top := Iff.rfl

theorem Desc_cons (top l h y : ℤ) (rest : List (ℤ × ℤ)) :
    Desc top ((l, h) :: rest) y ↔ 0 ≤ l ∧ l < h ∧ h ≤ top ∧ Desc l rest y :=
  Iff.rfl

theorem desc_y_le (top : ℤ) (ps : List (ℤ × ℤ)) (y : ℤ) (hd : Desc top ps y) :
    y ≤ top := by
  induction ps generalizing top with
  | nil => exact hd
  | cons a rest ih =>
    obtain ⟨l, h⟩ := a
    rw [Desc_cons] at hd
    exact le_trans (le_trans (ih l hd.2.2.2) (le_of_lt hd.2.1)) hd.2.2.1

theorem desc_append (top : ℤ) (ps : List (ℤ × ℤ)) (y l : ℤ)
    (hd : Desc top ps y) (h0 : 0 ≤ l) (hl : l < y) :
    Desc top (ps ++ [(l, y)]) l := by
  induction ps generalizing top with
  | nil =>
    rw [List.nil_append, Desc_cons]
    exact ⟨h0, hl, hd, le_refl l⟩
  | cons a rest ih =>
    obtain ⟨al, ah⟩ := a
    rw [Desc_cons] at hd
    rw [List.cons_append, Desc_cons]
    exact ⟨hd.1, hd.2.1, hd.2.2.1, ih al hd.2.2.2⟩

theorem desc_spans (top : ℤ) (ps : List (ℤ × ℤ)) (y : ℤ) (hd : Desc top ps y) :
    ∀ s ∈ ps, 0 ≤ s.1 ∧ s.1 < s.2 ∧ s.2 ≤ top := by
  induction ps generalizing top with
  | nil => intro s hs; exact absurd hs (List.not_mem_nil s)
  | cons a rest ih =>
    obtain ⟨l, h⟩ := a
    rw [Desc_cons] at hd
    obtain ⟨h1, h2, h3, h4⟩ := hd
    intro s hs
    rcases List.mem_cons.mp hs with rfl | hs2
    · exact ⟨h1, h2, h3⟩
    · have hb := ih l h4 s hs2
      exact ⟨hb.1, hb.2.1, le_trans hb.2.2 (le_trans (le_of_lt h2) h3)⟩

theorem desc_pairwise (top : ℤ) (ps : List (ℤ × ℤ)) (y : ℤ)
    (hd : Desc top ps y) : ps.Pairwise (fun a b => b.2 ≤ a.1) := by
  induction ps generalizing top with
  | nil => exact List.Pairwise.nil
  | cons a rest ih =>
    obtain ⟨l, h⟩ := a
    rw [Desc_cons] at hd
    obtain ⟨h1, h2, h3, h4⟩ := hd
    refine List.Pairwise.cons ?_ (ih l h4)
    intro b hb
    exact (desc_spans l rest y h4 b hb).2.2

theorem marchInv_true (sh y : ℤ) (ps acc : List (ℤ × ℤ))
    (hd : Desc sh ps y) : MarchInv sh ⟨true, y, ps, acc⟩ :=
  ⟨fun hh => Bool.noConfusion hh, hd⟩

theorem initMarch_inv (sh : ℕ) : MarchInv (sh : ℤ) (initMarch sh) :=
  ⟨fun _ => ⟨rfl, rfl⟩, le_refl (sh : ℤ)⟩

theorem marchStep_inv (sh : ℤ) (idx : ℤ × ℤ) (h : ℤ) (st : MarchState)
    (hInv : MarchInv sh st) :
    MarchInv sh (marchStep sh idx h st) ∧
      (marchStep sh idx h st).yBuf ≤ st.yBuf := by
  obtain ⟨hfirst, hdesc⟩ := hInv
  by_cases hf : st.first = true
  · simp only [marchStep, hf, if_true]
    split_ifs with h0 hp hp
    · exact ⟨marchInv_true sh 0 _ _ (desc_append sh st.paints st.yBuf 0 hdesc
        (le_refl 0) hp), le_of_lt hp⟩
    · exact ⟨marchInv_true sh st.yBuf _ _ hdesc, le_refl _⟩
    · exact ⟨marchInv_true sh h _ _ (desc_append sh st.paints st.yBuf h hdesc
        (le_of_not_lt h0) hp), le_of_lt hp⟩
    · exact ⟨marchInv_true sh st.yBuf _ _ hdesc, le_refl _⟩
  · have hf2 : st.first = false := Bool.not_eq_true st.first |>.mp hf
    obtain ⟨hyb, hps⟩ := hfirst hf2
    simp only [marchStep, hf2, if_false, Bool.false_eq_true]
    split_ifs with h0 hp hp
    · exfalso; omega
    · refine ⟨marchInv_true sh (min h sh) _ _ ?_, ?_⟩
      · rw [hps]; exact min_le_right h sh
      · show min h sh ≤ st.yBuf
        rw [hyb]; exact min_le_right h sh
    · exfalso; omega
    · refine ⟨marchInv_true sh (min h sh) _ _ ?_, ?_⟩
      · rw [hps]; exact min_le_right h sh
      · show min h sh ≤ st.yBuf
        rw [hyb]; exact min_le_right h sh

theorem marchDepths_inv (c : MarchCfg) (l : List ℕ) (st : MarchState)
    (hInv : MarchInv (c.sh : ℤ) st) :
    MarchInv (c.sh : ℤ) (marchDepths c l st) ∧
      (marchDepths c l st).yBuf ≤ st.yBuf := by
  induction l generalizing st with
  | nil => exact ⟨hInv, le_refl _⟩
  | cons d ds ih =>
    simp only [marchDepths]
    split_ifs with hb
    · exact ⟨hInv, le_refl _⟩
    · obtain ⟨h1, h2⟩ := marchStep_inv (c.sh : ℤ) (mapIdx c d) (c.hos d) st hInv
      obtain ⟨h3, h4⟩ := ih (marchStep (c.sh : ℤ) (mapIdx c d) (c.hos d) st) h1
      exact ⟨h3, le_trans h4 h2⟩

theorem marchDepths_append (c : MarchCfg) (l1 l2 : List ℕ) (st : MarchState)
    (hInv : MarchInv (c.sh : ℤ) st) :
    (marchDepths c (l1 ++ l2) st).yBuf ≤ (marchDepths c l1 st).yBuf := by
  induction l1 generalizing st with
  | nil =>
    rw [List.nil_append]
    exact (marchDepths_inv c l2 st hInv).2
  | cons d ds ih =>
    rw [List.cons_append]
    simp only [marchDepths]
    split_ifs with hb
    · exact le_refl _
    · exact ih (marchStep (c.sh : ℤ) (mapIdx c d) (c.hos d) st)
        (marchStep_inv (c.sh : ℤ) (mapIdx c d) (c.hos d) st hInv).1

/-- Claim C3: within one column's march, for every column configuration and
every player state (both abstracted into the per-depth sample oracles), the
horizon buffer entry is non-increasing as the number of processed depth
samples grows, and the painted spans of one render call are pairwise
disjoint, so no buffer row of the column is painted more than once. -/
theorem C3_horizon_monotone (c : MarchCfg) (rd n m : ℕ) (hnm : n ≤ m) :
    (marchUpTo c rd m).yBuf ≤ (marchUpTo c rd n).yBuf ∧
    (columnMarch c rd).paints.Pairwise
      (fun a b => ∀ r : ℤ, a.1 ≤ r → r < a.2 → ¬(b.1 ≤ r ∧ r < b.2)) := by
  constructor
  · unfold marchUpTo
    obtain ⟨k, rfl⟩ := Nat.exists_eq_add_of_le hnm
    rw [List.take_add]
    exact marchDepths_append c _ _ _ (initMarch_inv c.sh)
  · have hInv := (marchDepths_inv c (depthList rd) (initMarch c.sh)
      (initMarch_inv c.sh)).1
    have hp := desc_pairwise _ _ _ hInv.2
    refine hp.imp ?_
    intro a b hab
    intro r har1 har2 hbr
    omega

/-- Witness for claim C3 at a concrete column configuration. -/
theorem C3_horizon_monotone_witness :
    1 ≤ 2 ∧
    ((marchUpTo ⟨true, 4, 4, 450, fun _ => 0, fun _ => 0,
        fun d => 10 - (d : ℤ)⟩ 4 2).yBuf ≤
      (marchUpTo ⟨true, 4, 4, 450, fun _ => 0, fun _ => 0,
        fun d => 10 - (d : ℤ)⟩ 4 1).yBuf ∧
     (columnMarch ⟨true, 4, 4, 450, fun _ => 0, fun _ => 0,
        fun d => 10 - (d : ℤ)⟩ 4).paints.Pairwise
       (fun a b => ∀ r : ℤ, a.1 ≤ r → r < a.2 → ¬(b.1 ≤ r ∧ r < b.2))) :=
  ⟨by decide,
    C3_horizon_monotone ⟨true, 4, 4, 450, fun _ => 0, fun _ => 0,
      fun d => 10 - (d : ℤ)⟩ 4 1 2 (by decide)⟩

end VoxelEngine

namespace VoxelEngine

/-- Claim C4 counterexample: when the screen height of the very first depth
sample is negative (terrain towering above the camera), the horizon is
initialized to min(screenY, frameHeight) BEFORE the clamp to 0 (lines
132-136 run after line 133 has already stored the unclamped value), so
immediately after the first depth sample the horizon is negative, outside
the claimed interval [0, frameHeight]. -/
theorem C4_counterexample :
    (marchUpTo ⟨true, 4, 4, 450, fun _ => 0, fun _ => 0, fun _ => -5⟩
      2 1).yBuf = -5 ∧
    ¬(0 ≤ (marchUpTo ⟨true, 4, 4, 450, fun _ => 0, fun _ => 0, fun _ => -5⟩
      2 1).yBuf) := by
  decide

/-- Claim C4 (amended): screenY is truncated to an integer, and the clamp to
be ≥ 0 applies to the painted span only; on the column's first depth sample
the horizon is initialized to min(screenY, frameHeight) using the UNCLAMPED
screenY, so immediately after the first depth sample horizon[c] is at most
frameHeight but may be negative. -/
theorem C4_amended_first_sample (sh : ℤ) (idx : ℤ × ℤ) (h : ℤ)
    (st : MarchState) (hf : st.first = false) :
    (marchStep sh idx h st).yBuf = min h sh ∧
    (marchStep sh idx h st).yBuf ≤ sh := by
  simp only [marchStep, hf, if_false, Bool.false_eq_true]
  split_ifs with h0 hp hp
  · exfalso; omega
  · exact ⟨rfl, min_le_right h sh⟩
  · exfalso; omega
  · exact ⟨rfl, min_le_right h sh⟩

/-- Witness for the amended claim C4 at a concrete input. -/
theorem C4_amended_first_sample_witness :
    (MarchState.first ⟨false, 450, [], []⟩ = false) ∧
    ((marchStep 450 (0, 0) 7 ⟨false, 450, [], []⟩).yBuf = min 7 450 ∧
     (marchStep 450 (0, 0) 7 ⟨false, 450, [], []⟩).yBuf ≤ 450) :=
  ⟨rfl, C4_amended_first_sample 450 (0, 0) 7 ⟨false, 450, [], []⟩ rfl⟩

theorem marchDepths_acc (c : MarchCfg) (hW : 0 < c.W) (hH : 0 < c.H)
    (l : List ℕ) (st : MarchState)
    (hacc : ∀ a ∈ st.accesses,
      0 ≤ a.1 ∧ a.1 < (c.W : ℤ) ∧ 0 ≤ a.2 ∧ a.2 < (c.H : ℤ)) :
    ∀ a ∈ (marchDepths c l st).accesses,
      0 ≤ a.1 ∧ a.1 < (c.W : ℤ) ∧ 0 ≤ a.2 ∧ a.2 < (c.H : ℤ) := by
  induction l generalizing st with
  | nil => exact hacc
  | cons d ds ih =>
    simp only [marchDepths]
    split_ifs with hb
    · exact hacc
    · apply ih
      have hstep : (marchStep (c.sh : ℤ) (mapIdx c d) (c.hos d) st).accesses
          = st.accesses ++ [mapIdx c d] := by
        simp only [marchStep]
        split_ifs <;> rfl
      rw [hstep]
      intro a ha
      rcases List.mem_append.mp ha with h1 | h2
      · exact hacc a h1
      · have ha2 : a = mapIdx c d := by simpa using h2
        subst ha2
        unfold mapIdx
        by_cases hinf : c.infinite = true
        · rw [if_pos hinf]
          have hWne : (c.W : ℤ) ≠ 0 := by omega
          have hHne : (c.H : ℤ) ≠ 0 := by omega
          refine ⟨Int.emod_nonneg _ hWne, ?_, Int.emod_nonneg _ hHne, ?_⟩
          · exact Int.emod_lt_of_pos _ (by exact_mod_cast hW)
          · exact Int.emod_lt_of_pos _ (by exact_mod_cast hH)
        · have hinf2 : c.infinite = false := Bool.not_eq_true c.infinite |>.mp hinf
          rw [if_neg (by rw [hinf2]; exact Bool.false_ne_true)]
          simp only [sampleBreak, hinf2, Bool.not_false, Bool.true_and,
            Bool.or_eq_true, decide_eq_true_eq, not_or] at hb
          exact ⟨le_of_not_lt hb.1.1.1, lt_of_not_le hb.1.1.2,
            le_of_not_lt hb.1.2, lt_of_not_le hb.2⟩

/-- Claim C9: every write the raycaster performs is in bounds.  For every
column configuration (any finite player position, yaw, height and pitch give
some integer sample oracles): every terrain-grid access of the march lies
inside the W x H grid — wrapped by emod in infinite-map mode, and guarded by
the early break in clamp mode; every painted span of the column covers only
rows in [0, frameHeight); and the outer loop paints only columns with index
below the frame width. -/
theorem C9_raycast_bounds (c : MarchCfg) (rd : ℕ) (cfgs : ℕ → MarchCfg)
    (width : ℕ) (hW : 0 < c.W) (hH : 0 < c.H) :
    (∀ a ∈ (columnMarch c rd).accesses,
       0 ≤ a.1 ∧ a.1 < (c.W : ℤ) ∧ 0 ≤ a.2 ∧ a.2 < (c.H : ℤ)) ∧
    (∀ s ∈ (columnMarch c rd).paints,
       0 ≤ s.1 ∧ s.1 < s.2 ∧ s.2 ≤ (c.sh : ℤ)) ∧
    (∀ pr ∈ renderColumns cfgs width rd, pr.1 < width) := by
  refine ⟨?_, ?_, ?_⟩
  · unfold columnMarch
    exact marchDepths_acc c hW hH (depthList rd) (initMarch c.sh)
      (fun a ha => absurd ha (List.not_mem_nil a))
  · intro s hs
    have hInv := (marchDepths_inv c (depthList rd) (initMarch c.sh)
      (initMarch_inv c.sh)).1
    exact desc_spans _ _ _ hInv.2 s hs
  · intro pr hpr
    unfold renderColumns at hpr
    obtain ⟨i, hi, rfl⟩ := List.mem_map.mp hpr
    simpa using List.mem_range.mp hi

/-- Witness for claim C9 at a concrete column configuration. -/
theorem C9_raycast_bounds_witness :
    ((0 : ℕ) < 4 ∧ (0 : ℕ) < 3) ∧
    (∀ a ∈ (columnMarch ⟨true, 4, 3, 450, fun d => (d : ℤ), fun _ => -7,
        fun d => 100 - (d : ℤ)⟩ 5).accesses,
       0 ≤ a.1 ∧ a.1 < ((4 : ℕ) : ℤ) ∧ 0 ≤ a.2 ∧ a.2 < ((3 : ℕ) : ℤ)) :=
  ⟨⟨by decide, by decide⟩,
    (C9_raycast_bounds ⟨true, 4, 3, 450, fun d => (d : ℤ), fun _ => -7,
      fun d => 100 - (d : ℤ)⟩ 5 (fun _ => ⟨true, 4, 3, 450, fun d => (d : ℤ),
      fun _ => -7, fun d => 100 - (d : ℤ)⟩) 8 (by decide) (by decide)).1⟩

end VoxelEngine

namespace VoxelEngine

/-! ### Velocity decay and breathing effect: claims C7 and C8 -/

theorem vmag_scale (v : ℝ × ℝ) (d : ℝ) (hd : 0 ≤ d) :
    vmag (v.1 * d, v.2 * d) = d * vmag v := by
  unfold vmag
  rw [show (v.1 * d) ^ 2 + (v.2 * d) ^ 2 = d ^ 2 * (v.1 ^ 2 + v.2 ^ 2) by ring]
  rw [Real.sqrt_mul (sq_nonneg d), Real.sqrt_sq hd]

/-- Claim C7: with zero movement input at a fixed tick duration dt > 0 (and
away from boundary clamping, which the velocity phase of lines 185-196 never
touches), each tick maps the horizontal velocity v to v * DAMPING^(dt*60),
the magnitude strictly decreases while the velocity is nonzero, after n such
ticks the velocity is v * (DAMPING^(dt*60))^n, and the magnitude tends to 0
as the number of ticks grows. -/
theorem C7_velocity_decay (dt ws : ℝ) (v : ℝ × ℝ) (hdt : 0 < dt)
    (hv : v ≠ (0, 0)) :
    velStep dt ws (dampFactor dt) (0, 0) v
      = (v.1 * dampFactor dt, v.2 * dampFactor dt) ∧
    0 < dampFactor dt ∧ dampFactor dt < 1 ∧
    vmag (velStep dt ws (dampFactor dt) (0, 0) v) < vmag v ∧
    (∀ n : ℕ, velIter dt ws (dampFactor dt) n v
      = (v.1 * dampFactor dt ^ n, v.2 * dampFactor dt ^ n)) ∧
    Filter.Tendsto (fun n : ℕ => vmag (velIter dt ws (dampFactor dt) n v))
      Filter.atTop (nhds 0) := by
  have hd_pos : 0 < dampFactor dt :=
    Real.rpow_pos_of_pos (by norm_num) (dt * 60)
  have hd_lt : dampFactor dt < 1 :=
    Real.rpow_lt_one (by norm_num) (by norm_num) (by positivity)
  have hstep : ∀ w : ℝ × ℝ, velStep dt ws (dampFactor dt) (0, 0) w
      = (w.1 * dampFactor dt, w.2 * dampFactor dt) := by
    intro w
    simp [velStep]
  have hvv : v.1 ≠ 0 ∨ v.2 ≠ 0 := by
    by_contra hc
    push_neg at hc
    exact hv (Prod.ext hc.1 hc.2)
  have hsum : 0 < v.1 ^ 2 + v.2 ^ 2 := by
    rcases hvv with hh | hh
    · have := pow_two_pos_of_ne_zero hh
      nlinarith [sq_nonneg v.2]
    · have := pow_two_pos_of_ne_zero hh
      nlinarith [sq_nonneg v.1]
  have hmag : 0 < vmag v := Real.sqrt_pos.mpr hsum
  have hiter : ∀ (n : ℕ) (w : ℝ × ℝ), velIter dt ws (dampFactor dt) n w
      = (w.1 * dampFactor dt ^ n, w.2 * dampFactor dt ^ n) := by
    intro n
    induction n with
    | zero => intro w; simp [velIter]
    | succ m ih =>
      intro w
      rw [velIter, hstep w, ih]
      refine Prod.ext ?_ ?_ <;> simp <;> ring
  have hdec : vmag (velStep dt ws (dampFactor dt) (0, 0) v) < vmag v := by
    rw [hstep v, vmag_scale v (dampFactor dt) (le_of_lt hd_pos)]
    exact mul_lt_of_lt_one_left hmag hd_lt
  have htend : Filter.Tendsto
      (fun n : ℕ => vmag (velIter dt ws (dampFactor dt) n v))
      Filter.atTop (nhds 0) := by
    have hbase : Filter.Tendsto (fun n : ℕ => dampFactor dt ^ n * vmag v)
        Filter.atTop (nhds (0 * vmag v)) :=
      (tendsto_pow_atTop_nhds_zero_of_lt_one (le_of_lt hd_pos) hd_lt).mul_const
        (vmag v)
    rw [zero_mul] at hbase
    refine hbase.congr ?_
    intro n
    rw [hiter n v, vmag_scale v (dampFactor dt ^ n)
      (pow_nonneg (le_of_lt hd_pos) n)]
  exact ⟨hstep v, hd_pos, hd_lt, hdec, fun n => hiter n v, htend⟩

/-- Witness for claim C7 at a concrete input. -/
theorem C7_velocity_decay_witness :
    0 < (1/60 : ℝ) ∧ ((3 : ℝ), (4 : ℝ)) ≠ ((0 : ℝ), (0 : ℝ)) ∧
    vmag (velStep (1/60) 1 (dampFactor (1/60)) (0, 0) (3, 4)) < vmag (3, 4) :=
  ⟨by norm_num, by simp,
    (C7_velocity_decay (1/60) 1 (3, 4) (by norm_num) (by simp)).2.2.2.1⟩

/-- Claim C8: update_voxel_render feeds the raycaster an effective eye
height equal to eyeHeight + BREATH_AMPLITUDE * sin(elapsedTime *
BREATH_FREQUENCY) and leaves every field of the stored player state
unchanged (the source function reads but never assigns player fields); it
also forwards the player position, yaw and pitch unchanged and sets the ray
distance from the draw distance. -/
theorem C8_breathing_effect (vr : VoxelRender) (p : Player) (dd : ℤ)
    (t : ℝ) :
    (updateVoxelRender vr p dd t).2.1 = p ∧
    (updateVoxelRender vr p dd t).2.2.height
      = (p.height : ℝ) + 2 * Real.sin (t * (2/1000)) ∧
    (updateVoxelRender vr p dd t).1.rayDistance = dd ∧
    (updateVoxelRender vr p dd t).2.2.pos = p.pos ∧
    (updateVoxelRender vr p dd t).2.2.angle = p.angle ∧
    (updateVoxelRender vr p dd t).2.2.pitch = p.pitch := by
  refine ⟨rfl, ?_, rfl, rfl, rfl, rfl⟩
  show (p.height : ℝ) + BREATH_AMPLITUDE * Real.sin (t * BREATH_FREQUENCY)
    = (p.height : ℝ) + 2 * Real.sin (t * (2/1000))
  rw [BREATH_AMPLITUDE, BREATH_FREQUENCY]

end VoxelEngine
